import Mathlib

/-
Verification of the customersvc repository: a shallow embedding of the
in-memory customer service (service implementation, its nine operations,
and the HTTP transport's response encoding), with theorems settling the
specification's claims about it.
-/

namespace CustomerSvc

/-- Address is a field of a user customer: an identifier and an optional
location string. -/
structure Address where
  id : String
  location : String
deriving DecidableEq, Repr

/-- Customer represents a single user customer: caller-supplied identifier,
name, email, phone, and an ordered list of addresses. -/
structure Customer where
  id : String
  name : String
  email : String
  phone : String
  addresses : List Address
deriving DecidableEq, Repr

/-- The business error values declared by the service, plus a constructor
for any other error value reaching the transport layer. -/
inductive Err where
  | inconsistentIDs
  | alreadyExists
  | notFound
  | missingRequiredInputs
  | other (msg : String)
deriving DecidableEq, Repr

/-- The message carried by each error value, as created by errors.New. -/
def Err.message : Err → String
  | .inconsistentIDs => "inconsistent IDs"
  | .alreadyExists => "already exists"
  | .notFound => "not found"
  | .missingRequiredInputs =>
      "Missing required fields. Name and Email are required to create a Customer"
  | .other msg => msg

/-- The in-memory store: the map from customer identifier to customer
record, modelled as an association list with map semantics (at most one
live binding per key; lookup returns the first binding). -/
abbrev Store := List (String × Customer)

/-- Map lookup: the customer bound to an identifier, if any. -/
def storeFind (s : Store) (id : String) : Option Customer :=
  match s with
  | [] => none
  | (k, v) :: rest => if k = id then some v else storeFind rest id

/-- Map assignment: bind an identifier to a record, overwriting any
existing binding for that identifier. -/
def storeInsert (s : Store) (id : String) (c : Customer) : Store :=
  match s with
  | [] => [(id, c)]
  | (k, v) :: rest =>
      if k = id then (id, c) :: rest else (k, v) :: storeInsert rest id c

/-- Map deletion: remove every binding for an identifier. -/
def storeErase (s : Store) (id : String) : Store :=
  match s with
  | [] => []
  | (k, v) :: rest =>
      if k = id then storeErase rest id else (k, v) :: storeErase rest id

/-- PostCustomer (Create): validate required fields before touching the
store, then refuse to overwrite an existing identifier, else insert. On
success the new store is returned; an error leaves the store untouched. -/
def postCustomer (s : Store) (p : Customer) : Except Err Store :=
  if p.name = "" ∨ p.email = "" then
    .error .missingRequiredInputs
  else
    match storeFind s p.id with
    | some _ => .error .alreadyExists
    | none => .ok (storeInsert s p.id p)

/-- GetCustomer (Get): return the stored record, or NotFound. -/
def getCustomer (s : Store) (id : String) : Except Err Customer :=
  match storeFind s id with
  | none => .error .notFound
  | some p => .ok p

/-- PutCustomer (Replace): reject mismatched identifiers, else insert or
overwrite unconditionally (upsert). -/
def putCustomer (s : Store) (id : String) (p : Customer) : Except Err Store :=
  if id ≠ p.id then
    .error .inconsistentIDs
  else
    .ok (storeInsert s id p)

/-- The field-by-field merge performed by PatchCustomer: a non-empty
payload name replaces the existing name, a non-empty payload address list
replaces the existing address list, and no other field is consulted (the
zero value means not specified). -/
def patchMerge (existing p : Customer) : Customer :=
  let e1 := if p.name ≠ "" then { existing with name := p.name } else existing
  if p.addresses.length > 0 then { e1 with addresses := p.addresses } else e1

/-- PatchCustomer (Update): reject a non-empty payload identifier that
differs from the path identifier; require the target to exist; then merge
the payload into the existing record and store the result. -/
def patchCustomer (s : Store) (id : String) (p : Customer) : Except Err Store :=
  if p.id ≠ "" ∧ id ≠ p.id then
    .error .inconsistentIDs
  else
    match storeFind s id with
    | none => .error .notFound
    | some existing => .ok (storeInsert s id (patchMerge existing p))

/-- DeleteCustomer (Delete): require the target to exist, then remove it. -/
def deleteCustomer (s : Store) (id : String) : Except Err Store :=
  match storeFind s id with
  | none => .error .notFound
  | some _ => .ok (storeErase s id)

/-- GetAddresses (ListAddresses): the address list of an existing
customer, or NotFound. -/
def getAddresses (s : Store) (customerID : String) : Except Err (List Address) :=
  match storeFind s customerID with
  | none => .error .notFound
  | some p => .ok p.addresses

/-- GetAddress: linear scan of the customer's address list for the first
address with the requested identifier. -/
def getAddress (s : Store) (customerID addressID : String) : Except Err Address :=
  match storeFind s customerID with
  | none => .error .notFound
  | some p =>
      match p.addresses.find? (fun a => a.id = addressID) with
      | some a => .ok a
      | none => .error .notFound

/-- PostAddress (AddAddress): require the customer to exist, refuse a
duplicate address identifier, else append the address and store the
updated record. -/
def postAddress (s : Store) (customerID : String) (a : Address) : Except Err Store :=
  match storeFind s customerID with
  | none => .error .notFound
  | some p =>
      if p.addresses.any (fun addr => addr.id = a.id) then
        .error .alreadyExists
      else
        .ok (storeInsert s customerID { p with addresses := p.addresses ++ [a] })

/-- DeleteAddress (RemoveAddress): require the customer to exist, rebuild
the address list keeping every address whose identifier differs, report
NotFound when nothing was removed, else store the filtered record. -/
def deleteAddress (s : Store) (customerID addressID : String) : Except Err Store :=
  match storeFind s customerID with
  | none => .error .notFound
  | some p =>
      let newAddresses := p.addresses.filter (fun addr => addr.id ≠ addressID)
      if newAddresses.length = p.addresses.length then
        .error .notFound
      else
        .ok (storeInsert s customerID { p with addresses := newAddresses })

/-- One invocation of one of the nine service operations, with its
arguments. -/
inductive Op where
  | post (p : Customer)
  | get (id : String)
  | put (id : String) (p : Customer)
  | patch (id : String) (p : Customer)
  | delete (id : String)
  | getAddrs (customerID : String)
  | getAddr (customerID addressID : String)
  | postAddr (customerID : String) (a : Address)
  | deleteAddr (customerID addressID : String)
deriving DecidableEq, Repr

/-- The store state after one operation: the new store on success, the
unchanged store on a business error; read operations never change it. -/
def applyOp (s : Store) : Op → Store
  | .post p =>
      match postCustomer s p with
      | .ok t => t
      | .error _ => s
  | .get _ => s
  | .put id p =>
      match putCustomer s id p with
      | .ok t => t
      | .error _ => s
  | .patch id p =>
      match patchCustomer s id p with
      | .ok t => t
      | .error _ => s
  | .delete id =>
      match deleteCustomer s id with
      | .ok t => t
      | .error _ => s
  | .getAddrs _ => s
  | .getAddr _ _ => s
  | .postAddr cid a =>
      match postAddress s cid a with
      | .ok t => t
      | .error _ => s
  | .deleteAddr cid aid =>
      match deleteAddress s cid aid with
      | .ok t => t
      | .error _ => s

/-- The store state after a whole sequence of operations. -/
def runOps (s : Store) (ops : List Op) : Store :=
  ops.foldl applyOp s

/-- Address identifiers are pairwise distinct within one customer record. -/
def addrIDsUnique (c : Customer) : Prop :=
  (c.addresses.map Address.id).Nodup

/-- Every customer record in the store has pairwise distinct address
identifiers. -/
def storeAddrUnique (s : Store) : Prop :=
  ∀ kc ∈ s, addrIDsUnique kc.2

/-- Every customer record in the store carries the identifier it is
stored under. -/
def storeKeysMatch (s : Store) : Prop :=
  ∀ kc ∈ s, kc.2.id = kc.1

/-- The nine endpoint response shapes, each carrying its payload (if any)
and its Err field; none models a nil error. -/
inductive Response where
  | postCustomerResp (err : Option Err)
  | getCustomerResp (customer : Customer) (err : Option Err)
  | putCustomerResp (err : Option Err)
  | patchCustomerResp (err : Option Err)
  | deleteCustomerResp (err : Option Err)
  | getAddressesResp (addresses : List Address) (err : Option Err)
  | getAddressResp (address : Address) (err : Option Err)
  | postAddressResp (err : Option Err)
  | deleteAddressResp (err : Option Err)
deriving DecidableEq, Repr

/-- The Err field actually carried by a response value. -/
def Response.errField : Response → Option Err
  | .postCustomerResp e => e
  | .getCustomerResp _ e => e
  | .putCustomerResp e => e
  | .patchCustomerResp e => e
  | .deleteCustomerResp e => e
  | .getAddressesResp _ e => e
  | .getAddressResp _ e => e
  | .postAddressResp e => e
  | .deleteAddressResp e => e

/-- The error method from the errorer interface, as each response type
implements it: every type returns its Err field, except the put-customer
response, whose implementation returns nil. -/
def Response.errorMethod : Response → Option Err
  | .postCustomerResp e => e
  | .getCustomerResp _ e => e
  | .putCustomerResp _ => none
  | .patchCustomerResp e => e
  | .deleteCustomerResp e => e
  | .getAddressesResp _ e => e
  | .getAddressResp _ e => e
  | .postAddressResp e => e
  | .deleteAddressResp e => e

/-- codeFrom: the HTTP status mapped to each error value. -/
def codeFrom : Err → Nat
  | .notFound => 404
  | .alreadyExists => 400
  | .inconsistentIDs => 400
  | _ => 500

/-- The body written by the response encoder: either the single-field
JSON error object, or the JSON encoding of the response value itself. -/
inductive Body where
  | errorObj (msg : String)
  | jsonOf (r : Response)
deriving DecidableEq, Repr

/-- The observable HTTP reply: status code and body. -/
structure HTTPResponse where
  status : Nat
  body : Body
deriving DecidableEq, Repr

/-- encodeError: write the mapped status and the JSON error object. -/
def encodeError (e : Err) : HTTPResponse :=
  { status := codeFrom e, body := .errorObj e.message }

/-- encodeResponse: when the response's error method yields a non-nil
business error, delegate to encodeError; otherwise write the response as
JSON with the default 200 status. -/
def encodeResponse (r : Response) : HTTPResponse :=
  match r.errorMethod with
  | some e => encodeError e
  | none => { status := 200, body := .jsonOf r }

/-! ## Helper lemmas about the store -/

/-- Looking up the identifier just inserted yields the inserted record. -/
theorem storeFind_insert_self (s : Store) (id : String) (c : Customer) :
    storeFind (storeInsert s id c) id = some c := by
  induction s with
  | nil => simp [storeInsert, storeFind]
  | cons kv rest ih =>
      obtain ⟨k, v⟩ := kv
      by_cases hk : k = id
      · simp [storeInsert, hk, storeFind]
      · simp [storeInsert, hk, storeFind, ih]

/-- A successful lookup exhibits a binding in the association list. -/
theorem storeFind_mem {s : Store} {id : String} {c : Customer}
    (h : storeFind s id = some c) : (id, c) ∈ s := by
  induction s with
  | nil => simp [storeFind] at h
  | cons kv rest ih =>
      obtain ⟨k, v⟩ := kv
      by_cases hk : k = id
      · simp [storeFind, hk] at h
        subst hk h
        exact List.mem_cons_self _ _
      · simp [storeFind, hk] at h
        exact List.mem_cons_of_mem _ (ih h)

/-- Every binding after an insertion is the new binding or an old one. -/
theorem mem_storeInsert {s : Store} {id : String} {c : Customer}
    {kc : String × Customer} (h : kc ∈ storeInsert s id c) :
    kc = (id, c) ∨ kc ∈ s := by
  induction s with
  | nil => simpa [storeInsert] using h
  | cons kv rest ih =>
      obtain ⟨k, v⟩ := kv
      by_cases hk : k = id
      · simp [storeInsert, hk] at h
        rcases h with h | h
        · exact Or.inl (by simp [h])
        · exact Or.inr (List.mem_cons_of_mem _ h)
      · simp [storeInsert, hk] at h
        rcases h with h | h
        · exact Or.inr (by simp [h])
        · rcases ih h with h' | h'
          · exact Or.inl h'
          · exact Or.inr (List.mem_cons_of_mem _ h')

/-- Every binding after a deletion was already present before it. -/
theorem mem_storeErase {s : Store} {id : String}
    {kc : String × Customer} (h : kc ∈ storeErase s id) : kc ∈ s := by
  induction s with
  | nil => simp [storeErase] at h
  | cons kv rest ih =>
      obtain ⟨k, v⟩ := kv
      by_cases hk : k = id
      · simp [storeErase, hk] at h
        exact List.mem_cons_of_mem _ (ih h)
      · simp [storeErase, hk] at h
        rcases h with h | h
        · exact List.mem_cons.2 (Or.inl h)
        · exact List.mem_cons_of_mem _ (ih h)

/-- The merge never changes the identifier field. -/
theorem patchMerge_id (e p : Customer) : (patchMerge e p).id = e.id := by
  unfold patchMerge
  by_cases hn : p.name ≠ "" <;> by_cases ha : p.addresses.length > 0 <;> simp [hn, ha]

/-- The merge never changes the email field. -/
theorem patchMerge_email (e p : Customer) : (patchMerge e p).email = e.email := by
  unfold patchMerge
  by_cases hn : p.name ≠ "" <;> by_cases ha : p.addresses.length > 0 <;> simp [hn, ha]

/-- The merge never changes the phone field. -/
theorem patchMerge_phone (e p : Customer) : (patchMerge e p).phone = e.phone := by
  unfold patchMerge
  by_cases hn : p.name ≠ "" <;> by_cases ha : p.addresses.length > 0 <;> simp [hn, ha]

/-- The merged name is the payload's when non-empty, the existing one
otherwise. -/
theorem patchMerge_name (e p : Customer) :
    (patchMerge e p).name = if p.name = "" then e.name else p.name := by
  unfold patchMerge
  by_cases hn : p.name = "" <;> by_cases ha : p.addresses.length > 0 <;> simp [hn, ha]

/-- The merged address list is the payload's when non-empty, the existing
one otherwise. -/
theorem patchMerge_addresses (e p : Customer) :
    (patchMerge e p).addresses =
      if p.addresses.length > 0 then p.addresses else e.addresses := by
  unfold patchMerge
  by_cases hn : p.name ≠ "" <;> by_cases ha : p.addresses.length > 0 <;> simp [hn, ha]

/-! ## Claims about the service operations -/

/-- C4: Create fails with MissingRequiredField whenever the payload's name
or email is empty, regardless of the store; with both non-empty it fails
with AlreadyExists when the identifier is already bound; otherwise it
inserts the payload and succeeds. -/
theorem claim_C4 (s : Store) (p : Customer) :
    (p.name = "" ∨ p.email = "" →
        postCustomer s p = .error .missingRequiredInputs) ∧
    (p.name ≠ "" → p.email ≠ "" → ∀ c, storeFind s p.id = some c →
        postCustomer s p = .error .alreadyExists) ∧
    (p.name ≠ "" → p.email ≠ "" → storeFind s p.id = none →
        postCustomer s p = .ok (storeInsert s p.id p)) := by
  refine ⟨?_, ?_, ?_⟩
  · intro h
    simp [postCustomer, h]
  · intro hn he c hc
    simp [postCustomer, hn, he, hc]
  · intro hn he hc
    simp [postCustomer, hn, he, hc]

/-- C4 witness at concrete inputs. -/
theorem claim_C4_witness :
    postCustomer [] ⟨"1", "", "a@x.com", "", []⟩ =
        .error .missingRequiredInputs ∧
    postCustomer [("1", ⟨"1", "A", "a@x.com", "", []⟩)]
        ⟨"1", "B", "b@x.com", "", []⟩ = .error .alreadyExists ∧
    postCustomer [] ⟨"1", "A", "a@x.com", "", []⟩ =
        .ok [("1", ⟨"1", "A", "a@x.com", "", []⟩)] := by
  refine ⟨?_, ?_, ?_⟩
  · exact (claim_C4 [] ⟨"1", "", "a@x.com", "", []⟩).1 (Or.inl rfl)
  · exact (claim_C4 [("1", ⟨"1", "A", "a@x.com", "", []⟩)]
        ⟨"1", "B", "b@x.com", "", []⟩).2.1 (by decide) (by decide)
        ⟨"1", "A", "a@x.com", "", []⟩ rfl
  · exact (claim_C4 [] ⟨"1", "A", "a@x.com", "", []⟩).2.2
        (by decide) (by decide) rfl

/-- C5: Replace fails with InconsistentIDs exactly when the path
identifier and the payload identifier differ (whatever the store holds,
and the store is unchanged in that case), and otherwise inserts or
overwrites the record at the path identifier with the payload,
unconditionally. -/
theorem claim_C5 (s : Store) (id : String) (p : Customer) :
    (id ≠ p.id →
        putCustomer s id p = .error .inconsistentIDs ∧ applyOp s (.put id p) = s) ∧
    (id = p.id → putCustomer s id p = .ok (storeInsert s id p)) := by
  constructor
  · intro h
    constructor
    · simp [putCustomer, h]
    · simp [applyOp, putCustomer, h]
  · intro h
    simp [putCustomer, h]

/-- C5 witness at concrete inputs: a mismatched payload identifier is
rejected even though the path identifier is absent from the store, and a
matching one upserts. -/
theorem claim_C5_witness :
    putCustomer [] "a" ⟨"b", "N", "e@x", "", []⟩ = .error .inconsistentIDs ∧
    putCustomer [] "a" ⟨"a", "N", "e@x", "", []⟩ =
        .ok [("a", ⟨"a", "N", "e@x", "", []⟩)] := by
  constructor
  · exact ((claim_C5 [] "a" ⟨"b", "N", "e@x", "", []⟩).1 (by decide)).1
  · exact (claim_C5 [] "a" ⟨"a", "N", "e@x", "", []⟩).2 rfl

/-- C8: creating a valid customer whose identifier is free and then
reading that identifier back succeeds and returns the very customer. -/
theorem claim_C8 (s : Store) (c : Customer) (hn : c.name ≠ "")
    (he : c.email ≠ "") (hf : storeFind s c.id = none) :
    ∃ t, postCustomer s c = .ok t ∧ getCustomer t c.id = .ok c := by
  refine ⟨storeInsert s c.id c, ?_, ?_⟩
  · simp [postCustomer, hn, he, hf]
  · simp [getCustomer, storeFind_insert_self]

/-- C8 witness at a concrete customer and the empty store. -/
theorem claim_C8_witness :
    ∃ t, postCustomer [] ⟨"1", "A", "a@x.com", "", []⟩ = .ok t ∧
      getCustomer t "1" = .ok ⟨"1", "A", "a@x.com", "", []⟩ :=
  claim_C8 [] ⟨"1", "A", "a@x.com", "", []⟩ (by decide) (by decide) rfl

/-- C9: from a store not containing the identifier of a valid customer,
the first Create succeeds, the second Create of the same customer fails
with AlreadyExists, and the store after both calls is the store after the
first call alone. -/
theorem claim_C9 (s : Store) (c : Customer) (hn : c.name ≠ "")
    (he : c.email ≠ "") (hf : storeFind s c.id = none) :
    ∃ t, postCustomer s c = .ok t ∧
      postCustomer t c = .error .alreadyExists ∧
      applyOp (applyOp s (.post c)) (.post c) = applyOp s (.post c) := by
  refine ⟨storeInsert s c.id c, ?_, ?_, ?_⟩
  · simp [postCustomer, hn, he, hf]
  · simp [postCustomer, hn, he, storeFind_insert_self]
  · simp [applyOp, postCustomer, hn, he, hf, storeFind_insert_self]

/-- C9 witness at a concrete customer and the empty store. -/
theorem claim_C9_witness :
    ∃ t, postCustomer [] ⟨"1", "A", "a@x.com", "", []⟩ = .ok t ∧
      postCustomer t ⟨"1", "A", "a@x.com", "", []⟩ = .error .alreadyExists ∧
      applyOp (applyOp [] (.post ⟨"1", "A", "a@x.com", "", []⟩))
          (.post ⟨"1", "A", "a@x.com", "", []⟩) =
        applyOp [] (.post ⟨"1", "A", "a@x.com", "", []⟩) :=
  claim_C9 [] ⟨"1", "A", "a@x.com", "", []⟩ (by decide) (by decide) rfl

/-- C2 counterexample: updating an existing customer with a payload whose
only non-empty field is the email does not replace the stored email — the
call succeeds but leaves the record exactly as it was, so the claimed
merge of every non-empty field (including email) fails. -/
theorem claim_C2_counterexample :
    patchCustomer [("1", ⟨"1", "A", "old@x", "p0", []⟩)] "1"
        ⟨"", "", "new@x", "", []⟩ ≠
      .ok [("1", ⟨"1", "A", "new@x", "p0", []⟩)] ∧
    patchCustomer [("1", ⟨"1", "A", "old@x", "p0", []⟩)] "1"
        ⟨"", "", "new@x", "", []⟩ =
      .ok [("1", ⟨"1", "A", "old@x", "p0", []⟩)] := by
  constructor
  · intro h
    simp [patchCustomer, storeFind, patchMerge, storeInsert] at h
  · rfl

/-- C2 (amended): for an existing customer at the path identifier and a
payload whose identifier is empty or equal to it, Update stores the
existing record with its name replaced when the payload name is non-empty
and its address list replaced when the payload address list is non-empty;
the identifier, email and phone of the stored record are always kept
unchanged, whatever the payload's email and phone hold. -/
theorem claim_C2_amended (s : Store) (id : String) (p c : Customer)
    (hfind : storeFind s id = some c) (hid : p.id = "" ∨ p.id = id) :
    patchCustomer s id p = .ok (storeInsert s id (patchMerge c p)) ∧
    (patchMerge c p).name = (if p.name = "" then c.name else p.name) ∧
    (patchMerge c p).addresses =
      (if p.addresses.length > 0 then p.addresses else c.addresses) ∧
    (patchMerge c p).id = c.id ∧
    (patchMerge c p).email = c.email ∧
    (patchMerge c p).phone = c.phone := by
  have hguard : ¬ (p.id ≠ "" ∧ id ≠ p.id) := by
    rcases hid with h | h
    · simp [h]
    · simp [h]
  exact ⟨by simp [patchCustomer, hguard, hfind], patchMerge_name c p,
    patchMerge_addresses c p, patchMerge_id c p, patchMerge_email c p,
    patchMerge_phone c p⟩

/-- C2 witness at concrete inputs: a payload with non-empty name but
empty address list replaces only the name; stored email and phone stay. -/
theorem claim_C2_witness :
    patchCustomer [("1", ⟨"1", "A", "old@x", "p0", []⟩)] "1"
        ⟨"", "B", "ignored@x", "zz", []⟩ =
      .ok [("1", ⟨"1", "B", "old@x", "p0", []⟩)] := by
  have h := (claim_C2_amended [("1", ⟨"1", "A", "old@x", "p0", []⟩)] "1"
      ⟨"", "B", "ignored@x", "zz", []⟩ ⟨"1", "A", "old@x", "p0", []⟩
      rfl (Or.inl rfl)).1
  simpa [patchMerge, storeInsert] using h

/-- C6 counterexample: Update on an identifier absent from the store, with
a payload carrying a different non-empty identifier, fails with
InconsistentIDs, not with NotFound as the claim states. -/
theorem claim_C6_counterexample :
    storeFind [] "a" = none ∧
    patchCustomer [] "a" ⟨"b", "N", "e@x", "", []⟩ = .error .inconsistentIDs ∧
    patchCustomer [] "a" ⟨"b", "N", "e@x", "", []⟩ ≠ .error .notFound := by
  refine ⟨rfl, rfl, ?_⟩
  intro h
  simp [patchCustomer] at h

/-- C6 (amended): on a customer identifier not present in the store, Get,
Delete, ListAddresses, GetAddress, AddAddress and RemoveAddress fail with
NotFound, and so does Update provided its payload identifier is empty or
equal to the path identifier; Update with a non-empty payload identifier
different from the path identifier fails with InconsistentIDs instead; in
every case the store is left exactly as it was. -/
theorem claim_C6_amended (s : Store) (id : String)
    (h : storeFind s id = none) :
    getCustomer s id = .error .notFound ∧
    deleteCustomer s id = .error .notFound ∧
    (∀ p : Customer, p.id = "" ∨ p.id = id →
        patchCustomer s id p = .error .notFound) ∧
    (∀ p : Customer, p.id ≠ "" → p.id ≠ id →
        patchCustomer s id p = .error .inconsistentIDs) ∧
    getAddresses s id = .error .notFound ∧
    (∀ aid, getAddress s id aid = .error .notFound) ∧
    (∀ a, postAddress s id a = .error .notFound) ∧
    (∀ aid, deleteAddress s id aid = .error .notFound) ∧
    (∀ p, applyOp s (.patch id p) = s) ∧
    applyOp s (.delete id) = s ∧
    (∀ a, applyOp s (.postAddr id a) = s) ∧
    (∀ aid, applyOp s (.deleteAddr id aid) = s) := by
  refine ⟨?_, ?_, ?_, ?_, ?_, ?_, ?_, ?_, ?_, ?_, ?_, ?_⟩
  · simp [getCustomer, h]
  · simp [deleteCustomer, h]
  · intro p hp
    have hguard : ¬ (p.id ≠ "" ∧ id ≠ p.id) := by
      rcases hp with h' | h'
      · simp [h']
      · simp [h']
    simp [patchCustomer, hguard, h]
  · intro p hp1 hp2
    have hguard : p.id ≠ "" ∧ id ≠ p.id := ⟨hp1, fun h' => hp2 h'.symm⟩
    simp [patchCustomer, hguard]
  · simp [getAddresses, h]
  · intro aid
    simp [getAddress, h]
  · intro a
    simp [postAddress, h]
  · intro aid
    simp [deleteAddress, h]
  · intro p
    by_cases hguard : p.id ≠ "" ∧ id ≠ p.id
    · simp [applyOp, patchCustomer, hguard]
    · simp [applyOp, patchCustomer, hguard, h]
  · simp [applyOp, deleteCustomer, h]
  · intro a
    simp [applyOp, postAddress, h]
  · intro aid
    simp [applyOp, deleteAddress, h]

/-- C6 witness at the empty store and a concrete identifier. -/
theorem claim_C6_witness :
    getCustomer [] "a" = .error .notFound ∧
    deleteAddress [] "a" "x" = .error .notFound ∧
    applyOp [] (.delete "a") = [] :=
  ⟨(claim_C6_amended [] "a" rfl).1,
    (claim_C6_amended [] "a" rfl).2.2.2.2.2.2.2.1 "x",
    (claim_C6_amended [] "a" rfl).2.2.2.2.2.2.2.2.2.1⟩

/-- C7: on an existing customer, RemoveAddress fails with NotFound when no
stored address carries the requested identifier (leaving the store as it
was), and otherwise stores the customer with exactly the matching
addresses removed: the new list is the old one filtered to the addresses
with a different identifier, a sublist of the old list (so relative order
is preserved), containing precisely the old entries whose identifier
differs. -/
theorem claim_C7 (s : Store) (id aid : String) (c : Customer)
    (h : storeFind s id = some c) :
    ((∀ a ∈ c.addresses, a.id ≠ aid) →
        deleteAddress s id aid = .error .notFound ∧
        applyOp s (.deleteAddr id aid) = s) ∧
    ((∃ a ∈ c.addresses, a.id = aid) →
        deleteAddress s id aid =
          .ok (storeInsert s id
            { c with addresses := c.addresses.filter (fun a => a.id ≠ aid) }) ∧
        (c.addresses.filter (fun a => a.id ≠ aid)).Sublist c.addresses ∧
        (∀ a, a ∈ c.addresses.filter (fun a => a.id ≠ aid) ↔
            a ∈ c.addresses ∧ a.id ≠ aid)) := by
  constructor
  · intro hall
    have herr : deleteAddress s id aid = .error .notFound := by
      simp [deleteAddress, h]
      exact hall
    exact ⟨herr, by simp [applyOp, herr]⟩
  · rintro ⟨a, ha, haid⟩
    have hex : ∃ x ∈ c.addresses, x.id = aid := ⟨a, ha, haid⟩
    refine ⟨?_, List.filter_sublist _, ?_⟩
    · simp [deleteAddress, h, hex]
    · intro x
      simp [List.mem_filter]

/-- C7 witness at a concrete customer with two addresses: removing a
missing address identifier fails with NotFound, removing an existing one
keeps exactly the other address. -/
theorem claim_C7_witness :
    deleteAddress [("1", ⟨"1", "A", "a@x", "", [⟨"x", "l1"⟩, ⟨"y", "l2"⟩]⟩)]
        "1" "q" = .error .notFound ∧
    deleteAddress [("1", ⟨"1", "A", "a@x", "", [⟨"x", "l1"⟩, ⟨"y", "l2"⟩]⟩)]
        "1" "x" =
      .ok [("1", ⟨"1", "A", "a@x", "", [⟨"y", "l2"⟩]⟩)] := by
  constructor
  · exact ((claim_C7 [("1", ⟨"1", "A", "a@x", "", [⟨"x", "l1"⟩, ⟨"y", "l2"⟩]⟩)]
      "1" "q" ⟨"1", "A", "a@x", "", [⟨"x", "l1"⟩, ⟨"y", "l2"⟩]⟩ rfl).1
      (by decide)).1
  · have h := ((claim_C7 [("1", ⟨"1", "A", "a@x", "", [⟨"x", "l1"⟩, ⟨"y", "l2"⟩]⟩)]
      "1" "x" ⟨"1", "A", "a@x", "", [⟨"x", "l1"⟩, ⟨"y", "l2"⟩]⟩ rfl).2
      ⟨⟨"x", "l1"⟩, by decide, rfl⟩).1
    simpa [storeInsert] using h

/-! ## Inversion lemmas: what a successful mutation did to the store -/

/-- A successful Create inserted the payload at its own identifier. -/
theorem postCustomer_ok {s t : Store} {p : Customer}
    (h : postCustomer s p = .ok t) : t = storeInsert s p.id p := by
  unfold postCustomer at h
  by_cases hne : p.name = "" ∨ p.email = ""
  · simp [hne] at h
  · simp [hne] at h
    cases hf : storeFind s p.id with
    | some c => rw [hf] at h; simp at h
    | none => rw [hf] at h; simpa using h.symm

/-- A successful Replace inserted the payload, whose identifier equals
the path identifier. -/
theorem putCustomer_ok {s t : Store} {id : String} {p : Customer}
    (h : putCustomer s id p = .ok t) :
    id = p.id ∧ t = storeInsert s id p := by
  unfold putCustomer at h
  by_cases hid : id ≠ p.id
  · simp [hid] at h
  · simp [hid] at h
    exact ⟨not_not.1 hid, h.symm⟩

/-- A successful Update inserted the merge of the stored record with the
payload, at the path identifier. -/
theorem patchCustomer_ok {s t : Store} {id : String} {p : Customer}
    (h : patchCustomer s id p = .ok t) :
    ∃ e, storeFind s id = some e ∧ t = storeInsert s id (patchMerge e p) := by
  unfold patchCustomer at h
  by_cases hg : p.id ≠ "" ∧ id ≠ p.id
  · simp [hg] at h
  · simp [hg] at h
    cases hf : storeFind s id with
    | none => rw [hf] at h; simp at h
    | some e => rw [hf] at h; simp at h; exact ⟨e, rfl, h.symm⟩

/-- A successful Delete erased the identifier. -/
theorem deleteCustomer_ok {s t : Store} {id : String}
    (h : deleteCustomer s id = .ok t) : t = storeErase s id := by
  unfold deleteCustomer at h
  cases hf : storeFind s id with
  | none => rw [hf] at h; simp at h
  | some c => rw [hf] at h; simpa using h.symm

/-- A successful AddAddress appended the new address to the stored
record's list, whose identifiers all differ from the new one, and stored
the result at the customer identifier. -/
theorem postAddress_ok {s t : Store} {cid : String} {a : Address}
    (h : postAddress s cid a = .ok t) :
    ∃ p, storeFind s cid = some p ∧
      (∀ addr ∈ p.addresses, addr.id ≠ a.id) ∧
      t = storeInsert s cid { p with addresses := p.addresses ++ [a] } := by
  unfold postAddress at h
  cases hf : storeFind s cid with
  | none => rw [hf] at h; simp at h
  | some p =>
      rw [hf] at h
      by_cases hdup : p.addresses.any (fun addr => addr.id = a.id)
      · simp [hdup] at h
      · simp [hdup] at h
        refine ⟨p, rfl, ?_, h.symm⟩
        intro addr haddr
        simp [List.any_eq_true] at hdup
        exact hdup addr haddr

/-- A successful RemoveAddress stored the record with the matching
addresses filtered out, at the customer identifier. -/
theorem deleteAddress_ok {s t : Store} {cid aid : String}
    (h : deleteAddress s cid aid = .ok t) :
    ∃ p, storeFind s cid = some p ∧
      t = storeInsert s cid
        { p with addresses := p.addresses.filter (fun addr => addr.id ≠ aid) } := by
  unfold deleteAddress at h
  cases hf : storeFind s cid with
  | none => rw [hf] at h; simp at h
  | some p =>
      rw [hf] at h
      simp at h
      split at h
      · simp at h
      · injection h with h2
        exact ⟨p, rfl, by simpa using h2.symm⟩

/-! ## The reachability invariants -/

/-- Inserting a record carrying the key as its identifier preserves the
key/identifier agreement invariant. -/
theorem storeKeysMatch_insert {s : Store} {id : String} {c : Customer}
    (hs : storeKeysMatch s) (hc : c.id = id) :
    storeKeysMatch (storeInsert s id c) := by
  intro kc hkc
  rcases mem_storeInsert hkc with h | h
  · subst h; exact hc
  · exact hs kc h

/-- Erasing a key preserves the key/identifier agreement invariant. -/
theorem storeKeysMatch_erase {s : Store} {id : String}
    (hs : storeKeysMatch s) : storeKeysMatch (storeErase s id) :=
  fun kc hkc => hs kc (mem_storeErase hkc)

/-- Every single operation preserves the key/identifier agreement
invariant. -/
theorem applyOp_keysMatch (op : Op) {s : Store} (hs : storeKeysMatch s) :
    storeKeysMatch (applyOp s op) := by
  cases op with
  | post p =>
      simp only [applyOp]
      cases hc : postCustomer s p with
      | error e => exact hs
      | ok t =>
          have ht := postCustomer_ok hc
          subst ht
          exact storeKeysMatch_insert hs rfl
  | get id => exact hs
  | put id p =>
      simp only [applyOp]
      cases hc : putCustomer s id p with
      | error e => exact hs
      | ok t =>
          obtain ⟨hid, ht⟩ := putCustomer_ok hc
          subst ht
          exact storeKeysMatch_insert hs hid.symm
  | patch id p =>
      simp only [applyOp]
      cases hc : patchCustomer s id p with
      | error e => exact hs
      | ok t =>
          obtain ⟨e, hf, ht⟩ := patchCustomer_ok hc
          have heid : e.id = id := hs (id, e) (storeFind_mem hf)
          subst ht
          exact storeKeysMatch_insert hs ((patchMerge_id e p).trans heid)
  | delete id =>
      simp only [applyOp]
      cases hc : deleteCustomer s id with
      | error e => exact hs
      | ok t =>
          have ht := deleteCustomer_ok hc
          subst ht
          exact storeKeysMatch_erase hs
  | getAddrs cid => exact hs
  | getAddr cid aid => exact hs
  | postAddr cid a =>
      simp only [applyOp]
      cases hc : postAddress s cid a with
      | error e => exact hs
      | ok t =>
          obtain ⟨p, hf, hnd, ht⟩ := postAddress_ok hc
          have hpid : p.id = cid := hs (cid, p) (storeFind_mem hf)
          subst ht
          exact storeKeysMatch_insert hs hpid
  | deleteAddr cid aid =>
      simp only [applyOp]
      cases hc : deleteAddress s cid aid with
      | error e => exact hs
      | ok t =>
          obtain ⟨p, hf, ht⟩ := deleteAddress_ok hc
          have hpid : p.id = cid := hs (cid, p) (storeFind_mem hf)
          subst ht
          exact storeKeysMatch_insert hs hpid

/-- Any operation sequence from an invariant-satisfying store preserves
the key/identifier agreement invariant. -/
theorem runOps_keysMatch (ops : List Op) {s : Store} (hs : storeKeysMatch s) :
    storeKeysMatch (runOps s ops) := by
  induction ops generalizing s with
  | nil => exact hs
  | cons op rest ih => exact ih (applyOp_keysMatch op hs)

/-- C10: in every store state reachable from the empty store by any
sequence of the nine service operations, each stored customer record's
identifier equals the key it is stored under. -/
theorem claim_C10 (ops : List Op) : storeKeysMatch (runOps [] ops) :=
  runOps_keysMatch ops (fun kc hkc => absurd hkc (List.not_mem_nil kc))

/-- C3 counterexample: the address-uniqueness invariant is violated in a
state reachable by a single Replace whose payload carries two addresses
with the same identifier — Replace stores the payload unconditionally,
without checking its address list. -/
theorem claim_C3_counterexample :
    ¬ storeAddrUnique (runOps []
      [Op.put "a" ⟨"a", "N", "e@x", "", [⟨"x", "l1"⟩, ⟨"x", "l2"⟩]⟩]) := by
  intro hinv
  have hmem : ("a", (⟨"a", "N", "e@x", "", [⟨"x", "l1"⟩, ⟨"x", "l2"⟩]⟩ : Customer)) ∈
      runOps [] [Op.put "a" ⟨"a", "N", "e@x", "", [⟨"x", "l1"⟩, ⟨"x", "l2"⟩]⟩] := by
    decide
  have h2 : (["x", "x"] : List String).Nodup := hinv _ hmem
  exact absurd h2 (by decide)

/-- An operation payload free of duplicate address identifiers: the
condition on Create, Replace and Update payloads under which the
uniqueness invariant is preserved; the other operations carry no address
list that enters the store wholesale. -/
def Op.cleanPayload : Op → Prop
  | .post p => addrIDsUnique p
  | .put _ p => addrIDsUnique p
  | .patch _ p => addrIDsUnique p
  | _ => True

/-- Inserting a record with unique address identifiers preserves the
store-wide uniqueness invariant. -/
theorem storeAddrUnique_insert {s : Store} {id : String} {c : Customer}
    (hs : storeAddrUnique s) (hc : addrIDsUnique c) :
    storeAddrUnique (storeInsert s id c) := by
  intro kc hkc
  rcases mem_storeInsert hkc with h | h
  · subst h; exact hc
  · exact hs kc h

/-- Erasing a key preserves the store-wide uniqueness invariant. -/
theorem storeAddrUnique_erase {s : Store} {id : String}
    (hs : storeAddrUnique s) : storeAddrUnique (storeErase s id) :=
  fun kc hkc => hs kc (mem_storeErase hkc)

/-- The merge of a record with unique address identifiers and a payload
with unique address identifiers again has unique address identifiers. -/
theorem addrIDsUnique_patchMerge {e p : Customer}
    (he : addrIDsUnique e) (hp : addrIDsUnique p) :
    addrIDsUnique (patchMerge e p) := by
  unfold addrIDsUnique at *
  rw [patchMerge_addresses]
  by_cases ha : p.addresses.length > 0
  · simpa [ha] using hp
  · simpa [ha] using he

/-- Appending an address whose identifier differs from every stored one
keeps the address identifiers unique. -/
theorem addrIDsUnique_append {p : Customer} {a : Address}
    (hp : addrIDsUnique p) (hnew : ∀ addr ∈ p.addresses, addr.id ≠ a.id) :
    addrIDsUnique { p with addresses := p.addresses ++ [a] } := by
  unfold addrIDsUnique at *
  simp only [List.map_append, List.map_cons, List.map_nil]
  rw [List.nodup_append]
  refine ⟨hp, List.nodup_singleton _, ?_⟩
  intro x hx hx1
  simp at hx1
  simp [List.mem_map] at hx
  obtain ⟨addr, haddr, hid⟩ := hx
  exact hnew addr haddr (hid.trans hx1)

/-- Filtering the address list keeps the address identifiers unique. -/
theorem addrIDsUnique_filter (p : Customer) (q : Address → Bool)
    (hp : addrIDsUnique p) :
    addrIDsUnique { p with addresses := p.addresses.filter q } := by
  unfold addrIDsUnique at *
  exact ((p.addresses.filter_sublist).map Address.id).nodup hp

/-- Every single operation with a clean payload preserves the store-wide
address-uniqueness invariant. -/
theorem applyOp_addrUnique (op : Op) {s : Store} (hclean : op.cleanPayload)
    (hs : storeAddrUnique s) : storeAddrUnique (applyOp s op) := by
  cases op with
  | post p =>
      simp only [applyOp]
      cases hc : postCustomer s p with
      | error e => exact hs
      | ok t =>
          have ht := postCustomer_ok hc
          subst ht
          exact storeAddrUnique_insert hs hclean
  | get id => exact hs
  | put id p =>
      simp only [applyOp]
      cases hc : putCustomer s id p with
      | error e => exact hs
      | ok t =>
          obtain ⟨hid, ht⟩ := putCustomer_ok hc
          subst ht
          exact storeAddrUnique_insert hs hclean
  | patch id p =>
      simp only [applyOp]
      cases hc : patchCustomer s id p with
      | error e => exact hs
      | ok t =>
          obtain ⟨e, hf, ht⟩ := patchCustomer_ok hc
          have he : addrIDsUnique e := hs (id, e) (storeFind_mem hf)
          subst ht
          exact storeAddrUnique_insert hs (addrIDsUnique_patchMerge he hclean)
  | delete id =>
      simp only [applyOp]
      cases hc : deleteCustomer s id with
      | error e => exact hs
      | ok t =>
          have ht := deleteCustomer_ok hc
          subst ht
          exact storeAddrUnique_erase hs
  | getAddrs cid => exact hs
  | getAddr cid aid => exact hs
  | postAddr cid a =>
      simp only [applyOp]
      cases hc : postAddress s cid a with
      | error e => exact hs
      | ok t =>
          obtain ⟨p, hf, hnd, ht⟩ := postAddress_ok hc
          have hp : addrIDsUnique p := hs (cid, p) (storeFind_mem hf)
          subst ht
          exact storeAddrUnique_insert hs (addrIDsUnique_append hp hnd)
  | deleteAddr cid aid =>
      simp only [applyOp]
      cases hc : deleteAddress s cid aid with
      | error e => exact hs
      | ok t =>
          obtain ⟨p, hf, ht⟩ := deleteAddress_ok hc
          have hp : addrIDsUnique p := hs (cid, p) (storeFind_mem hf)
          subst ht
          exact storeAddrUnique_insert hs (addrIDsUnique_filter p _ hp)

/-- Clean operation sequences preserve the store-wide uniqueness
invariant. -/
theorem runOps_addrUnique (ops : List Op) {s : Store}
    (hclean : ∀ op ∈ ops, op.cleanPayload) (hs : storeAddrUnique s) :
    storeAddrUnique (runOps s ops) := by
  induction ops generalizing s with
  | nil => exact hs
  | cons op rest ih =>
      exact ih (fun o ho => hclean o (List.mem_cons_of_mem op ho))
        (applyOp_addrUnique op (hclean op (List.mem_cons_self op rest)) hs)

/-- C3 (amended): in every store state reachable from the empty store by
a sequence of the nine service operations whose Create, Replace and
Update payloads each carry an address list free of duplicate identifiers,
address identifiers are unique within each stored customer's address
list; AddAddress itself enforces this, so arbitrary address operations
need no side condition. -/
theorem claim_C3_amended (ops : List Op)
    (hclean : ∀ op ∈ ops, op.cleanPayload) :
    storeAddrUnique (runOps [] ops) :=
  runOps_addrUnique ops hclean (fun kc hkc => absurd hkc (List.not_mem_nil kc))

/-- C3 witness: a concrete clean sequence — Create a customer with one
address and then AddAddress another — reaches a store satisfying the
invariant. -/
theorem claim_C3_witness :
    storeAddrUnique (runOps []
      [Op.post ⟨"1", "A", "a@x", "", [⟨"x", "l"⟩]⟩, Op.postAddr "1" ⟨"y", "m"⟩]) := by
  apply claim_C3_amended
  intro op hop
  simp at hop
  rcases hop with h | h <;> subst h <;> simp [Op.cleanPayload, addrIDsUnique]

/-- C1: evaluation of the transport encoding at the failing input. The
error-to-status mapping itself is as specified (404, 400, 400, 500 for
anything else), and responses such as the patch-customer or get-customer
one route their business error through it; but the put-customer
response's error method returns nil instead of its Err field, so a
Replace that failed with InconsistentIDs is encoded with status 200 and
the plain JSON response body, not with status 400 and the error object
the claim requires. -/
theorem claim_C1_eval :
    codeFrom Err.notFound = 404 ∧
    codeFrom Err.alreadyExists = 400 ∧
    codeFrom Err.inconsistentIDs = 400 ∧
    codeFrom Err.missingRequiredInputs = 500 ∧
    codeFrom (Err.other "boom") = 500 ∧
    encodeResponse (Response.getCustomerResp ⟨"", "", "", "", []⟩
        (some Err.notFound)) =
      { status := 404, body := Body.errorObj "not found" } ∧
    encodeResponse (Response.patchCustomerResp (some Err.inconsistentIDs)) =
      { status := 400, body := Body.errorObj "inconsistent IDs" } ∧
    (Response.putCustomerResp (some Err.inconsistentIDs)).errField =
      some Err.inconsistentIDs ∧
    encodeResponse (Response.putCustomerResp (some Err.inconsistentIDs)) =
      { status := 200,
        body := Body.jsonOf (Response.putCustomerResp (some Err.inconsistentIDs)) } ∧
    encodeResponse (Response.putCustomerResp (some Err.inconsistentIDs)) ≠
      encodeError Err.inconsistentIDs := by
  decide

end CustomerSvc
